import Mathlib

/-!
Verification development for the admission-automation backend
(`src/backend/agents`): a shallow embedding of the document classifier,
the data-extraction agent, the admission-decision agent and the
workflow graph, together with theorems checking the natural-language
specification against this embedding.

Conventions of the embedding:
* Python floats that only carry confidence scores are modelled exactly
  over `ℚ` (the code only ever compares and averages small literals).
* JSON objects returned by the language model are modelled as
  association lists `List (String × Option String)`: the extraction
  code only ever inspects key presence and null-ness of values, so the
  payload of a non-null value is abstracted to a `String`.
* Calls to the language model and to the RAG retriever are modelled as
  explicit parameters (`respOf` functions); a raised exception is an
  `Except.error`, a returned response is an `Except.ok`.
-/

namespace AdmissionAuto

/-- The closed status set of `AdmissionDecision.status`
(`state.py`, `Literal["APPROVED", "REJECTED", "REVIEW_REQUIRED", "MISSING_DOCS"]`). -/
inductive Status where
  | APPROVED
  | REJECTED
  | REVIEW_REQUIRED
  | MISSING_DOCS
deriving DecidableEq, Repr

/-- A classified document (`state.py`, `ClassifiedDocument`); the wrapped
`DocumentFile` is represented by its filename, the only part the agents use. -/
structure ClassifiedDocument where
  filename : String
  document_type : String
  confidence : ℚ
deriving DecidableEq, Repr

/-- A JSON object, as far as the extraction code inspects it: a list of
fields, each mapped to `none` (JSON null) or a value. -/
abbrev Dict := List (String × Option String)

/-- Extracted data for one document (`state.py`, `ExtractedData`). -/
structure ExtractedData where
  document_type : String
  data : Dict
  confidence : ℚ
  source_file : String
deriving DecidableEq, Repr

/-- An admission decision (`state.py`, `AdmissionDecision`). Applied rules
are kept as opaque payload strings: no claim inspects their structure. -/
structure AdmissionDecision where
  status : Status
  confidence : ℚ
  reasoning : String
  applied_rules : List String
  missing_documents : List String := []
  handbook_citations : List String := []
deriving DecidableEq, Repr

/-- The pipeline state (`state.py`, `ApplicationState`). The log list and
the creation timestamp are omitted: no claim inspects them. -/
structure ApplicationState where
  application_id : String
  applicant_id : String
  target_program : String
  entity : String
  uploaded_files : List String
  classified_documents : List ClassifiedDocument
  extracted_data : List ExtractedData
  admission_decision : Option AdmissionDecision
  current_stage : String
  error_message : Option String
deriving DecidableEq, Repr

/-! Document classifier (`document_classifier.py`). -/

/-- The classifier's category list (`document_classifier.py`, `self.document_types`). -/
def documentTypes : List String :=
  ["transcript", "a_levels", "abitur", "ib", "passport", "cv",
   "work_certificate", "apprenticeship", "other"]

/-- Outcome of one classification model call, after `json.loads` and
pydantic construction: `parsed` carries the raw `document_type` string and
`confidence` number of the model's JSON; `invalid` is any response for
which parsing or construction raised (the classifier catches every
exception of that block). -/
inductive ClassificationResponse where
  | parsed (document_type : String) (confidence : ℚ)
  | invalid
deriving DecidableEq, Repr

/-- One document classification (`_classify_single_document`): the parsed
values are used verbatim; on a parse failure the fallback is category
"other" with confidence 0.1. -/
def classifySingleDocument (file : String) : ClassificationResponse → ClassifiedDocument
  | ClassificationResponse.parsed t c =>
      { filename := file, document_type := t, confidence := c }
  | ClassificationResponse.invalid =>
      { filename := file, document_type := "other", confidence := 1 / 10 }

/-- The spec's invariant on a classified document: category in the closed
set, confidence in [0,1]. -/
def ClassifiedInvariant (d : ClassifiedDocument) : Prop :=
  d.document_type ∈ documentTypes ∧ 0 ≤ d.confidence ∧ d.confidence ≤ 1

instance (d : ClassifiedDocument) : Decidable (ClassifiedInvariant d) := by
  unfold ClassifiedInvariant; infer_instance

/-- The classification stage (`DocumentClassifierAgent.process`): each
uploaded file is classified; a file whose classification raises is
logged and skipped (`Except.error`), the rest are collected in order. -/
def classifierProcess (respOf : String → Except String ClassificationResponse)
    (s : ApplicationState) : ApplicationState :=
  { s with
    classified_documents :=
      s.uploaded_files.filterMap
        (fun f => (Except.map (classifySingleDocument f) (respOf f)).toOption),
    current_stage := "documents_classified" }

/-! Data extractor (`data_extractor.py`). -/

/-- Lookup of a key in a JSON object (Python `d[k]` / `k in d`). -/
def dictLookup : Dict → String → Option (Option String)
  | [], _ => none
  | p :: d, k => if p.1 = k then some p.2 else dictLookup d k

/-- Python `k in d` on a dict. -/
def hasKey (d : Dict) (k : String) : Bool :=
  (dictLookup d k).isSome

/-- Python `field in d and d[field] is not None`. -/
def isFilled (d : Dict) (f : String) : Bool :=
  match dictLookup d f with
  | some (some _) => true
  | _ => false

/-- Count of non-null fields (`sum(1 for v in extracted_data.values() if v is not None)`). -/
def nonNullCount (d : Dict) : Nat :=
  (d.filter (fun p => p.2.isSome)).length

/-- The per-category critical-field table of
`_calculate_extraction_confidence` (`critical_fields` dict, accessed with
`doc_type in critical_fields`). -/
def criticalFields (t : String) : Option (List String) :=
  if t = "transcript" then some ["institution_name", "graduation_date", "final_grade"]
  else if t = "a_levels" then some ["exam_board", "subjects"]
  else if t = "abitur" then some ["school_name", "overall_grade", "graduation_year"]
  else if t = "ib" then some ["total_points", "subjects", "graduation_year"]
  else none

/-- Confidence scoring (`_calculate_extraction_confidence`), translated
clause by clause from the source. -/
def calculateExtractionConfidence (d : Dict) (docType : String) : ℚ :=
  if d.isEmpty || hasKey d "error" then 0
  else
    let nonNull := nonNullCount d
    let total := d.length
    if total = 0 then 0
    else
      let base : ℚ := (nonNull : ℚ) / (total : ℚ)
      match criticalFields docType with
      | some crit =>
          let critPresent := (crit.filter (fun f => isFilled d f)).length
          let critFrac : ℚ := (critPresent : ℚ) / (crit.length : ℚ)
          min 1 (base * (1 / 2) + critFrac * (1 / 2))
      | none => base

/-- Confidence formula as the spec words it (claim C3): base completeness
ratio, blended half-and-half with the critical-field ratio for the four
categories that have critical fields. -/
def specExtractionConfidence (d : Dict) (t : String) : ℚ :=
  let base : ℚ := (nonNullCount d : ℚ) / (d.length : ℚ)
  if t = "transcript" ∨ t = "a_levels" ∨ t = "abitur" ∨ t = "ib" then
    let crit := (criticalFields t).getD []
    let critFrac : ℚ := ((crit.filter (fun f => isFilled d f)).length : ℚ) / (crit.length : ℚ)
    min 1 (base * (1 / 2) + critFrac * (1 / 2))
  else base

/-- Outcome of one extraction model call after `json.loads`: `json` is a
response that parsed to a JSON object, `invalid` one that raised
`JSONDecodeError`. (A response that parses to a non-object raises later,
outside this handler, and so surfaces as a per-document exception.) -/
inductive ExtractionResponse where
  | json (data : Dict)
  | invalid
deriving DecidableEq, Repr

/-- Extraction for a single document (`_extract_from_document`): on a
parsed object the confidence is computed; on a JSON parse failure the
error-sentinel record with confidence 0.0 is returned. -/
def extractFromDocument (doc : ClassifiedDocument) : ExtractionResponse → ExtractedData
  | ExtractionResponse.json d =>
      { document_type := doc.document_type, data := d,
        confidence := calculateExtractionConfidence d doc.document_type,
        source_file := doc.filename }
  | ExtractionResponse.invalid =>
      { document_type := doc.document_type,
        data := [("error", some "Failed to parse extracted data")],
        confidence := 0, source_file := doc.filename }

/-- The extraction stage (`DataExtractionAgent.process`): every classified
document is processed in order; a document whose extraction raises is
logged and omitted, the rest are collected; the stage then records the
list and marks itself done. -/
def extractorProcess (respOf : ClassifiedDocument → Except String ExtractionResponse)
    (s : ApplicationState) : ApplicationState :=
  { s with
    extracted_data :=
      s.classified_documents.filterMap
        (fun doc => (Except.map (extractFromDocument doc) (respOf doc)).toOption),
    current_stage := "data_extracted" }

/-! Admission decision agent (`admission_agent.py`). -/

/-- The required-documents table by entity (`admission_agent.py`,
`self.required_docs`, accessed with `.get(entity, [])`). -/
def requiredDocs (entity : String) : List String :=
  if entity = "DE" then ["transcript", "abitur"]
  else if entity = "UK" then ["transcript", "a_levels"]
  else if entity = "CA" then ["transcript"]
  else []

/-- Document-completeness check (`_check_document_completeness`): the
required categories of the entity that do not occur among the classified
documents' categories, in required order. -/
def checkDocumentCompleteness (s : ApplicationState) : List String :=
  let provided := s.classified_documents.map (fun doc => doc.document_type)
  (requiredDocs s.entity).filter (fun t => decide (t ∉ provided))

/-- The MISSING_DOCS short-circuit decision built in
`AdmissionDecisionAgent.process` when the completeness check reports
missing categories. -/
def missingDocsDecision (missing : List String) : AdmissionDecision :=
  { status := Status.MISSING_DOCS,
    confidence := 1,
    reasoning := "Missing required documents: " ++ String.intercalate ", " missing,
    applied_rules := [],
    missing_documents := missing,
    handbook_citations := [] }

/-- Outcome of the decision-synthesis model call at the point where
`_apply_decision_logic` inspects it: `parsed` is a response whose JSON
parsed and whose fields passed pydantic construction (so the raw status is
one of the four `Literal` values, carried here as `Status`); `invalidJson`
is a response that raised `json.JSONDecodeError`. A response that parses
but lacks a required key, or fails validation, raises outside this
handler and surfaces as a stage-level exception instead. -/
inductive DecisionResponse where
  | parsed (status : Status) (confidence : ℚ) (reasoning : String)
      (applied_rules : List String) (missing_documents : List String)
      (handbook_citations : List String)
  | invalidJson
deriving DecidableEq, Repr

/-- Decision construction from the model response
(`_apply_decision_logic`, lines 248-270): the parsed fields are used
verbatim; on a JSON parse failure the conservative fallback decision is
returned (its `missing_documents` is the pydantic default `[]`). -/
def applyDecisionLogic : DecisionResponse → AdmissionDecision
  | DecisionResponse.parsed st c r ar md hc =>
      { status := st, confidence := c, reasoning := r,
        applied_rules := ar, missing_documents := md, handbook_citations := hc }
  | DecisionResponse.invalidJson =>
      { status := Status.REVIEW_REQUIRED,
        confidence := 0,
        reasoning := "Decision parsing failed - requires manual review",
        applied_rules := [],
        missing_documents := [],
        handbook_citations := [] }

/-- The decision stage (`AdmissionDecisionAgent.process`): the stage
marker is set, completeness is checked first; on missing categories the
short-circuit decision is stored without consulting the model
(`respOf` unused); otherwise the profile/RAG/model path runs, its
response is turned into a decision, and any exception raised on that
path (`Except.error`) is caught, recorded and leaves the stage at
"error". -/
def admissionProcess (respOf : ApplicationState → Except String DecisionResponse)
    (s : ApplicationState) : ApplicationState :=
  let s1 := { s with current_stage := "making_decision" }
  let missing := checkDocumentCompleteness s1
  if missing.isEmpty then
    match respOf s1 with
    | Except.ok r =>
        { s1 with admission_decision := some (applyDecisionLogic r),
                  current_stage := "decision_made" }
    | Except.error e =>
        { s1 with error_message := some e, current_stage := "error" }
  else
    { s1 with admission_decision := some (missingDocsDecision missing),
              current_stage := "decision_made" }

/-! Workflow graph (`workflow.py`). -/

/-- Error-handling node (`_handle_error_node`): logs and marks the
application handled. -/
def handleErrorNode (s : ApplicationState) : ApplicationState :=
  { s with current_stage := "error_handled" }

/-- Conditional edge after classification
(`_should_continue_after_classification`): returns the edge label and the
state (whose `error_message` the gate may set). -/
def shouldContinueAfterClassification (s : ApplicationState) : String × ApplicationState :=
  if s.error_message.isSome then ("error", s)
  else if s.classified_documents.isEmpty then
    ("error", { s with error_message := some "No documents were successfully classified" })
  else if (s.classified_documents.filter (fun doc => decide (1 / 2 < doc.confidence))).isEmpty then
    ("error", { s with error_message := some "No documents classified with sufficient confidence" })
  else ("continue", s)

/-- Conditional edge after extraction
(`_should_continue_after_extraction`). -/
def shouldContinueAfterExtraction (s : ApplicationState) : String × ApplicationState :=
  if s.error_message.isSome then ("error", s)
  else if s.extracted_data.isEmpty then
    ("error", { s with error_message := some "No data was successfully extracted" })
  else if (s.extracted_data.filter (fun x => decide (1 / 10 < x.confidence))).isEmpty then
    ("error", { s with error_message := some "No data extracted with sufficient confidence" })
  else ("continue", s)

/-- The compiled workflow (`_build_workflow` plus the node functions):
entry at classification, conditional edges to extraction and decision,
the error label routed to the error handler, and both the decision node
and the error handler wired to END. -/
def runWorkflow (classifyResp : String → Except String ClassificationResponse)
    (extractResp : ClassifiedDocument → Except String ExtractionResponse)
    (decisionResp : ApplicationState → Except String DecisionResponse)
    (s0 : ApplicationState) : ApplicationState :=
  let s1 := classifierProcess classifyResp s0
  let g1 := shouldContinueAfterClassification s1
  if g1.1 = "error" then handleErrorNode g1.2
  else
    let s2 := extractorProcess extractResp g1.2
    let g2 := shouldContinueAfterExtraction s2
    if g2.1 = "error" then handleErrorNode g2.2
    else admissionProcess decisionResp g2.2

/-! Auxiliary relation and concrete sample data used by the theorems. -/

/-- Pointwise "fills at least as many fields" relation on JSON objects:
same keys in the same order, and every field non-null on the left is
non-null on the right ("all else equal" in the monotonicity claim). -/
def FillsTo : Dict → Dict → Prop
  | [], [] => True
  | p :: d1, q :: d2 =>
      p.1 = q.1 ∧ (p.2.isSome = true → q.2.isSome = true) ∧ FillsTo d1 d2
  | _, _ => False

/-- A blank application state from which concrete test states are built. -/
def blankState : ApplicationState :=
  { application_id := "APP-00000001", applicant_id := "APPL-1",
    target_program := "BSc Computer Science", entity := "DE",
    uploaded_files := [], classified_documents := [], extracted_data := [],
    admission_decision := none, current_stage := "created", error_message := none }

/-- A confidently classified transcript. -/
def sampleTranscriptDoc : ClassifiedDocument :=
  { filename := "transcript.pdf", document_type := "transcript", confidence := 9 / 10 }

/-- A confidently classified CV. -/
def sampleCvDoc : ClassifiedDocument :=
  { filename := "cv.pdf", document_type := "cv", confidence := 8 / 10 }

/-- A German-entity application that provided a transcript but no Abitur. -/
def deMissingAbiturState : ApplicationState :=
  { blankState with entity := "DE", classified_documents := [sampleTranscriptDoc] }

/-- A decision-model call that returns unparseable output. -/
def decisionRespInvalid : ApplicationState → Except String DecisionResponse :=
  fun _ => Except.ok DecisionResponse.invalidJson

/-- A decision-model call that raises. -/
def decisionRespFailure : ApplicationState → Except String DecisionResponse :=
  fun _ => Except.error "Connection error from decision model call"

/-- A parsed decision-synthesis response proposing APPROVED with
confidence 0.5. -/
def lowConfidenceApprovedResponse : DecisionResponse :=
  DecisionResponse.parsed Status.APPROVED (1 / 2)
    "Applicant appears qualified" [] [] []

/-- A parsed decision-synthesis response proposing MISSING_DOCS. -/
def missingDocsProposal : DecisionResponse :=
  DecisionResponse.parsed Status.MISSING_DOCS (9 / 10)
    "Synthesis model itself proposed missing documents" [] ["transcript"] []

/-- A parsed decision-synthesis response proposing REVIEW_REQUIRED. -/
def reviewProposal : DecisionResponse :=
  DecisionResponse.parsed Status.REVIEW_REQUIRED (6 / 10)
    "Needs a human check" [] [] []

/-- A decision-model call that returns `reviewProposal`. -/
def decisionRespReview : ApplicationState → Except String DecisionResponse :=
  fun _ => Except.ok reviewProposal

/-- A decision-model call that returns `missingDocsProposal`. -/
def decisionRespMissingDocs : ApplicationState → Except String DecisionResponse :=
  fun _ => Except.ok missingDocsProposal

/-- Classification calls that confidently classify everything as a transcript. -/
def demoClassifyResp : String → Except String ClassificationResponse :=
  fun _ => Except.ok (ClassificationResponse.parsed "transcript" (9 / 10))

/-- Extraction calls that return a one-field JSON object. -/
def demoExtractResp : ClassifiedDocument → Except String ExtractionResponse :=
  fun _ => Except.ok (ExtractionResponse.json [("institution_name", some "IU Berlin")])

/-- A Canadian-entity application with one uploaded file. -/
def caOneFileState : ApplicationState :=
  { blankState with entity := "CA", uploaded_files := ["transcript.pdf"] }

/-- A well-formed classification response with an out-of-set category and
an out-of-range confidence. -/
def outOfRangeClassification : ClassificationResponse :=
  ClassificationResponse.parsed "pizza" (3 / 2)

/-- An application from an entity with no required-documents entry. -/
def frEntityState : ApplicationState :=
  { blankState with entity := "FR", classified_documents := [sampleCvDoc] }

/-- A transcript JSON object with every field null. -/
def dictAllNull : Dict := [("gpa", none), ("final_grade", none)]

/-- A transcript JSON object with one of four fields filled. -/
def dictPartial : Dict :=
  [("institution_name", some "IU"), ("graduation_date", none),
   ("final_grade", none), ("gpa", none)]

/-- `dictPartial` with one additional field filled. -/
def dictMore : Dict :=
  [("institution_name", some "IU"), ("graduation_date", some "2020-06-30"),
   ("final_grade", none), ("gpa", none)]

/-- A transcript JSON object with all fields (critical ones included) filled. -/
def dictFullTranscript : Dict :=
  [("institution_name", some "IU"), ("graduation_date", some "2020-06-30"),
   ("final_grade", some "1.3")]

/-- Extraction calls where the CV crashes the reader and everything else
extracts fine. -/
def c8RespOf : ClassifiedDocument → Except String ExtractionResponse :=
  fun doc =>
    if doc.document_type = "cv" then Except.error "pdf reader crashed"
    else Except.ok (ExtractionResponse.json dictFullTranscript)

/-- A state holding one transcript and one CV, both classified. -/
def transcriptAndCvState : ApplicationState :=
  { blankState with classified_documents := [sampleTranscriptDoc, sampleCvDoc] }

/-! Theorems. -/

/-- C1: the code does not enforce the confidence floor. A decision-synthesis
response that parses as JSON and proposes status APPROVED with confidence
0.5 is returned by `_apply_decision_logic` with status APPROVED unchanged:
the coercion of sub-0.8 confidence to REVIEW_REQUIRED is requested in the
prompt text only and never applied to the parsed response. -/
theorem low_confidence_approved_passes_through :
    (applyDecisionLogic lowConfidenceApprovedResponse).confidence < 8 / 10 ∧
    (applyDecisionLogic lowConfidenceApprovedResponse).status = Status.APPROVED ∧
    (applyDecisionLogic lowConfidenceApprovedResponse).status ≠ Status.REVIEW_REQUIRED := by
  refine ⟨?_, rfl, ?_⟩
  · show (1 : ℚ) / 2 < 8 / 10
    norm_num
  · intro h
    exact Status.noConfusion h

/-- C4: a decision-synthesis response that is not valid JSON is converted
(without propagating the `JSONDecodeError`) into the fallback decision:
REVIEW_REQUIRED, confidence 0.0, a parsing-failure reasoning text, empty
applied-rules and handbook-citations lists — never APPROVED or REJECTED. -/
theorem invalid_decision_json_falls_back_to_review :
    (applyDecisionLogic DecisionResponse.invalidJson).status = Status.REVIEW_REQUIRED ∧
    (applyDecisionLogic DecisionResponse.invalidJson).confidence = 0 ∧
    (applyDecisionLogic DecisionResponse.invalidJson).reasoning =
      "Decision parsing failed - requires manual review" ∧
    (applyDecisionLogic DecisionResponse.invalidJson).applied_rules = [] ∧
    (applyDecisionLogic DecisionResponse.invalidJson).handbook_citations = [] ∧
    (applyDecisionLogic DecisionResponse.invalidJson).status ≠ Status.APPROVED ∧
    (applyDecisionLogic DecisionResponse.invalidJson).status ≠ Status.REJECTED := by
  refine ⟨rfl, rfl, rfl, rfl, rfl, ?_, ?_⟩ <;> exact fun h => Status.noConfusion h

/-- C9 counterexample: a well-formed classification response whose raw
category and confidence are used verbatim can produce a classified
document outside the closed category set with confidence above 1. -/
theorem classified_document_invariant_fails :
    ¬ ClassifiedInvariant (classifySingleDocument "menu.pdf" outOfRangeClassification) := by
  decide

/-- C9 amended: the fallback document built from a malformed response
always satisfies the invariant (category "other", confidence 0.1), while
for a well-formed response the model's raw category and confidence are
used verbatim, so the invariant holds exactly when the proposed values
already satisfy it. -/
theorem classified_document_invariant_characterisation :
    (∀ f, ClassifiedInvariant (classifySingleDocument f ClassificationResponse.invalid)) ∧
    (∀ f t c,
      ClassifiedInvariant (classifySingleDocument f (ClassificationResponse.parsed t c)) ↔
        (t ∈ documentTypes ∧ 0 ≤ c ∧ c ≤ 1)) := by
  constructor
  · intro f
    refine ⟨by simp [classifySingleDocument, documentTypes], ?_, ?_⟩
    · show (0 : ℚ) ≤ 1 / 10
      norm_num
    · show (1 : ℚ) / 10 ≤ 1
      norm_num
  · intro f t c
    exact Iff.rfl

/-- C6 counterexample: with no classified documents at all, the gate does
route to the error path (no document exceeds confidence 0.5), but the
message is "No documents were successfully classified", not the string
the claim fixes for every error case. -/
theorem classification_gate_empty_set_message :
    (shouldContinueAfterClassification blankState).1 = "error" ∧
    (shouldContinueAfterClassification blankState).2.error_message ≠
      some "No documents classified with sufficient confidence" ∧
    (shouldContinueAfterClassification blankState).2.error_message =
      some "No documents were successfully classified" := by
  refine ⟨rfl, ?_, rfl⟩
  intro h
  simp [shouldContinueAfterClassification, blankState] at h

/-- C3: on every non-empty extracted field mapping without an error
sentinel, the source's confidence computation agrees with the spec's
formula: base completeness ratio, blended half-and-half with the
critical-field ratio for transcript/a_levels/abitur/ib, capped at 1. -/
theorem extraction_confidence_matches_spec (d : Dict) (t : String)
    (hne : d ≠ []) (herr : hasKey d "error" = false) :
    calculateExtractionConfidence d t = specExtractionConfidence d t := by
  have hEmpty : d.isEmpty = false := by
    cases d with
    | nil => exact absurd rfl hne
    | cons p d' => rfl
  have hLen : ¬ d.length = 0 := by
    cases d with
    | nil => exact absurd rfl hne
    | cons p d' => simp
  unfold calculateExtractionConfidence specExtractionConfidence
  by_cases h1 : t = "transcript"
  · simp [criticalFields, hEmpty, herr, hLen, h1]
  · by_cases h2 : t = "a_levels"
    · simp [criticalFields, hEmpty, herr, hLen, h1, h2]
    · by_cases h3 : t = "abitur"
      · simp [criticalFields, hEmpty, herr, hLen, h1, h2, h3]
      · by_cases h4 : t = "ib"
        · simp [criticalFields, hEmpty, herr, hLen, h1, h2, h3, h4]
        · simp [criticalFields, hEmpty, herr, hLen, h1, h2, h3, h4]

/-- Witness for C3 at a concrete partially-filled transcript record. -/
theorem extraction_confidence_matches_spec_witness :
    dictPartial ≠ [] ∧ hasKey dictPartial "error" = false ∧
    calculateExtractionConfidence dictPartial "transcript" =
      specExtractionConfidence dictPartial "transcript" :=
  ⟨by decide, by decide,
   extraction_confidence_matches_spec dictPartial "transcript" (by decide) (by decide)⟩

/-- C6 amended: with no pre-existing error, the gate continues exactly
when some classified document has confidence strictly above 0.5; on the
error path the message is the claimed deterministic string whenever at
least one document was classified, and "No documents were successfully
classified" when the classified set is empty. -/
theorem classification_gate_characterisation (s : ApplicationState)
    (h : s.error_message = none) :
    ((shouldContinueAfterClassification s).1 = "continue" ↔
       ∃ doc ∈ s.classified_documents, 1 / 2 < doc.confidence) ∧
    ((shouldContinueAfterClassification s).1 = "error" →
       (shouldContinueAfterClassification s).2.error_message =
         some (if s.classified_documents.isEmpty then
                 "No documents were successfully classified"
               else "No documents classified with sufficient confidence")) := by
  have hneStr : ("error" : String) ≠ "continue" := by decide
  by_cases hempty : s.classified_documents.isEmpty
  · have hnil : s.classified_documents = [] := List.isEmpty_iff.mp hempty
    have hg : shouldContinueAfterClassification s =
        ("error",
         { s with error_message := some "No documents were successfully classified" }) := by
      unfold shouldContinueAfterClassification
      rw [h]
      rw [if_neg (by simp), if_pos hempty]
    rw [hg]
    constructor
    · constructor
      · intro hc; exact absurd hc hneStr
      · rintro ⟨doc, hdoc, _⟩
        rw [hnil] at hdoc
        exact absurd hdoc (List.not_mem_nil doc)
    · intro _
      simp [hempty]
  · by_cases hconf :
      (s.classified_documents.filter (fun doc => decide (1 / 2 < doc.confidence))).isEmpty
    · have hg : shouldContinueAfterClassification s =
          ("error",
           { s with error_message := some "No documents classified with sufficient confidence" }) := by
        unfold shouldContinueAfterClassification
        rw [h]
        rw [if_neg (by simp), if_neg hempty, if_pos hconf]
      have hnone : ¬ ∃ doc ∈ s.classified_documents, 1 / 2 < doc.confidence := by
        rintro ⟨doc, hdoc, hgt⟩
        have hmemf : doc ∈ s.classified_documents.filter
            (fun doc => decide (1 / 2 < doc.confidence)) :=
          List.mem_filter.mpr ⟨hdoc, by simpa using hgt⟩
        rw [List.isEmpty_iff.mp hconf] at hmemf
        exact absurd hmemf (List.not_mem_nil doc)
      rw [hg]
      constructor
      · exact ⟨fun hc => absurd hc hneStr, fun hex => absurd hex hnone⟩
      · intro _
        simp [hempty]
    · have hg : shouldContinueAfterClassification s = ("continue", s) := by
        unfold shouldContinueAfterClassification
        rw [h]
        rw [if_neg (by simp), if_neg hempty, if_neg hconf]
      have hsome : ∃ doc ∈ s.classified_documents, 1 / 2 < doc.confidence := by
        rcases hl : s.classified_documents.filter
            (fun doc => decide (1 / 2 < doc.confidence)) with _ | ⟨a, l⟩
        · exact absurd (by rw [hl]; rfl) hconf
        · have ha : a ∈ s.classified_documents.filter
              (fun doc => decide (1 / 2 < doc.confidence)) := by
            rw [hl]; exact List.mem_cons_self a l
          rcases List.mem_filter.mp ha with ⟨hmem, hp⟩
          exact ⟨a, hmem, by simpa using hp⟩
      rw [hg]
      constructor
      · exact ⟨fun _ => hsome, fun _ => rfl⟩
      · intro hc
        exact absurd hc.symm hneStr

/-- Witness for C6 at a state with one confidently classified document. -/
theorem classification_gate_characterisation_witness :
    deMissingAbiturState.error_message = none ∧
    (((shouldContinueAfterClassification deMissingAbiturState).1 = "continue" ↔
        ∃ doc ∈ deMissingAbiturState.classified_documents, 1 / 2 < doc.confidence) ∧
     ((shouldContinueAfterClassification deMissingAbiturState).1 = "error" →
        (shouldContinueAfterClassification deMissingAbiturState).2.error_message =
          some (if deMissingAbiturState.classified_documents.isEmpty then
                  "No documents were successfully classified"
                else "No documents classified with sufficient confidence"))) :=
  ⟨rfl, classification_gate_characterisation deMissingAbiturState rfl⟩

/-! Helper lemmas about `Dict` and `FillsTo`, shared by several claims. -/

/-- A successful dict lookup exhibits a member of the association list. -/
theorem dictLookup_mem : ∀ (d : Dict) (k : String) (v : Option String),
    dictLookup d k = some v → (k, v) ∈ d := by
  intro d
  induction d with
  | nil => intro k v h; exact Option.noConfusion h
  | cons p d ih =>
    intro k v h
    unfold dictLookup at h
    by_cases hpk : p.1 = k
    · rw [if_pos hpk] at h
      have hv : v = p.2 := (Option.some.inj h).symm
      subst hv
      rw [← hpk]
      exact List.mem_cons.mpr (Or.inl rfl)
    · rw [if_neg hpk] at h
      exact List.mem_cons_of_mem p (ih k v h)

/-- Related dicts have the same length. -/
theorem fillsTo_length (d1 : Dict) : ∀ d2, FillsTo d1 d2 → d1.length = d2.length := by
  induction d1 with
  | nil =>
    intro d2 h
    cases d2 with
    | nil => rfl
    | cons q d2 => exact h.elim
  | cons p d1 ih =>
    intro d2 h
    cases d2 with
    | nil => exact h.elim
    | cons q d2 =>
      have := ih d2 h.2.2
      simp [this]

/-- Related dicts have the same keys, position by position, so key
presence coincides. -/
theorem fillsTo_hasKey (d1 : Dict) : ∀ d2, FillsTo d1 d2 → ∀ k, hasKey d1 k = hasKey d2 k := by
  induction d1 with
  | nil =>
    intro d2 h k
    cases d2 with
    | nil => rfl
    | cons q d2 => exact h.elim
  | cons p d1 ih =>
    intro d2 h k
    cases d2 with
    | nil => exact h.elim
    | cons q d2 =>
      rcases h with ⟨hk, _, hrest⟩
      unfold hasKey dictLookup
      by_cases hpk : p.1 = k
      · rw [if_pos hpk, if_pos (hk ▸ hpk)]
        rfl
      · rw [if_neg hpk, if_neg (hk ▸ hpk)]
        exact ih d2 hrest k

/-- Filling fields never decreases the non-null count. -/
theorem fillsTo_nonNullCount (d1 : Dict) : ∀ d2, FillsTo d1 d2 →
    nonNullCount d1 ≤ nonNullCount d2 := by
  induction d1 with
  | nil =>
    intro d2 h
    cases d2 with
    | nil => exact le_refl _
    | cons q d2 => exact h.elim
  | cons p d1 ih =>
    intro d2 h
    cases d2 with
    | nil => exact h.elim
    | cons q d2 =>
      rcases h with ⟨_, hv, hrest⟩
      have ihr := ih d2 hrest
      unfold nonNullCount at ihr ⊢
      by_cases hp : p.2.isSome = true
      · have hq := hv hp
        simp only [List.filter_cons, hp, hq, if_pos, List.length_cons]
        omega
      · by_cases hq : q.2.isSome = true
        · simp only [List.filter_cons, hp, hq, if_pos, if_neg, List.length_cons]
          simp only [Bool.false_eq_true, if_false]
          omega
        · simp only [List.filter_cons, hp, hq]
          simp only [Bool.false_eq_true, if_false]
          omega

/-- Filling fields preserves every filled lookup. -/
theorem fillsTo_isFilled (d1 : Dict) : ∀ d2, FillsTo d1 d2 →
    ∀ k, isFilled d1 k = true → isFilled d2 k = true := by
  induction d1 with
  | nil =>
    intro d2 h k hf
    cases d2 with
    | nil => exact hf
    | cons q d2 => exact h.elim
  | cons p d1 ih =>
    intro d2 h k hf
    cases d2 with
    | nil => exact h.elim
    | cons q d2 =>
      rcases h with ⟨hk, hv, hrest⟩
      unfold isFilled dictLookup at hf ⊢
      by_cases hpk : p.1 = k
      · rw [if_pos hpk] at hf
        rw [if_pos (hk ▸ hpk)]
        rcases hp2 : p.2 with _ | x
        · rw [hp2] at hf; exact Bool.noConfusion hf
        · have hq : q.2.isSome = true := hv (by rw [hp2]; rfl)
          rcases hq2 : q.2 with _ | y
          · rw [hq2] at hq; exact Bool.noConfusion hq
          · rfl
      · rw [if_neg hpk] at hf
        rw [if_neg (hk ▸ hpk)]
        exact ih d2 hrest k hf

/-- Pointwise implication between predicates gives a filter-length bound. -/
theorem filter_length_mono {α : Type} (p q : α → Bool) :
    ∀ l : List α, (∀ a ∈ l, p a = true → q a = true) →
      (l.filter p).length ≤ (l.filter q).length := by
  intro l
  induction l with
  | nil => intro _; exact le_refl _
  | cons a l ih =>
    intro h
    have hrest := ih (fun b hb hpb => h b (List.mem_cons_of_mem a hb) hpb)
    by_cases hp : p a = true
    · have hq := h a (List.mem_cons_self a l) hp
      simp only [List.filter_cons, hp, hq, if_pos, List.length_cons]
      omega
    · by_cases hq : q a = true
      · simp only [List.filter_cons, hp, hq, if_pos, List.length_cons]
        simp only [Bool.false_eq_true, if_false]
        omega
      · simp only [List.filter_cons, hp, hq]
        simp only [Bool.false_eq_true, if_false]
        omega

/-- Division of monotone numerators by a common natural denominator. -/
theorem natCastDivMono (a b m : Nat) (h : a ≤ b) :
    (a : ℚ) / (m : ℚ) ≤ (b : ℚ) / (m : ℚ) := by
  rcases Nat.eq_zero_or_pos m with hm | hm
  · subst hm; simp
  · have h' : (a : ℚ) ≤ (b : ℚ) := by exact_mod_cast h
    have hm' : (0 : ℚ) < (m : ℚ) := by exact_mod_cast hm
    gcongr

/-- The critical-field table never stores an empty field list. -/
theorem criticalFields_ne_nil (t : String) (crit : List String)
    (h : criticalFields t = some crit) : crit ≠ [] := by
  unfold criticalFields at h
  split_ifs at h <;>
    first
      | exact Option.noConfusion h
      | (injection h with h2; rw [← h2]; decide)

/-- Monotonicity of extraction confidence under filling fields. -/
theorem calcConf_mono (t : String) (d1 d2 : Dict) (hF : FillsTo d1 d2) :
    calculateExtractionConfidence d1 t ≤ calculateExtractionConfidence d2 t := by
  cases d1 with
  | nil =>
    cases d2 with
    | nil => exact le_refl _
    | cons q d2 => exact hF.elim
  | cons p d1 =>
    cases d2 with
    | nil => exact hF.elim
    | cons q d2 =>
      have hlen := fillsTo_length _ _ hF
      have hkey := fillsTo_hasKey _ _ hF "error"
      unfold calculateExtractionConfidence
      by_cases herr : hasKey (p :: d1) "error" = true
      · have herr2 : hasKey (q :: d2) "error" = true := by rw [← hkey]; exact herr
        rw [if_pos (by simp [herr]), if_pos (by simp [herr2])]
      · have herrB : hasKey (p :: d1) "error" = false := by
          cases hb : hasKey (p :: d1) "error"
          · rfl
          · exact absurd hb herr
        have herrB2 : hasKey (q :: d2) "error" = false := by rw [← hkey]; exact herrB
        have hnc1 : ¬ (((p :: d1).isEmpty || hasKey (p :: d1) "error") = true) := by
          simp [herrB]
        have hnc2 : ¬ (((q :: d2).isEmpty || hasKey (q :: d2) "error") = true) := by
          simp [herrB2]
        have hl1 : ¬ ((p :: d1).length = 0) := by simp
        have hl2 : ¬ ((q :: d2).length = 0) := by simp
        rw [if_neg hnc1, if_neg hnc2, if_neg hl1, if_neg hl2]
        have hbase : ((nonNullCount (p :: d1) : ℚ)) / ((p :: d1).length : ℚ) ≤
            ((nonNullCount (q :: d2) : ℚ)) / ((q :: d2).length : ℚ) := by
          rw [hlen]
          exact natCastDivMono _ _ _ (fillsTo_nonNullCount _ _ hF)
        rcases hcf : criticalFields t with _ | crit
        · exact hbase
        · have hfrac : (((crit.filter (fun f => isFilled (p :: d1) f)).length : ℚ)) /
              ((crit.length : ℚ)) ≤
              (((crit.filter (fun f => isFilled (q :: d2) f)).length : ℚ)) /
              ((crit.length : ℚ)) :=
            natCastDivMono _ _ _
              (filter_length_mono _ _ crit
                (fun f _ hf => fillsTo_isFilled _ _ hF f hf))
          exact min_le_min (le_refl 1)
            (add_le_add (mul_le_mul_of_nonneg_right hbase (by norm_num))
              (mul_le_mul_of_nonneg_right hfrac (by norm_num)))

/-- A record with every field null scores confidence 0. -/
theorem calcConf_zero_of_all_null (t : String) (d : Dict)
    (h : ∀ p ∈ d, p.2 = none) :
    calculateExtractionConfidence d t = 0 := by
  cases d with
  | nil => rfl
  | cons p0 d0 =>
    unfold calculateExtractionConfidence
    by_cases herr : hasKey (p0 :: d0) "error" = true
    · rw [if_pos (by simp [herr])]
    · rw [if_neg (by simp [herr]), if_neg (by simp)]
      have hnn : nonNullCount (p0 :: d0) = 0 := by
        unfold nonNullCount
        have hfil : (p0 :: d0).filter (fun p => p.2.isSome) = [] := by
          rw [List.filter_eq_nil_iff]
          intro a ha
          simp [h a ha]
        rw [hfil]
        rfl
      have hbase : ((nonNullCount (p0 :: d0) : ℚ)) / (((p0 :: d0).length : ℚ)) = 0 := by
        rw [hnn]
        simp
      have hnotfilled : ∀ f, isFilled (p0 :: d0) f = false := by
        intro f
        unfold isFilled
        rcases hl : dictLookup (p0 :: d0) f with _ | v
        · rfl
        · have hmem := dictLookup_mem _ _ _ hl
          have hv := h _ hmem
          simp only at hv
          rw [hv]
      rcases hcf : criticalFields t with _ | crit
      · exact hbase
      · have hfilcrit : crit.filter (fun f => isFilled (p0 :: d0) f) = [] := by
          rw [List.filter_eq_nil_iff]
          intro f _
          simp [hnotfilled f]
        dsimp only
        rw [hfilcrit, hbase]
        simp

/-- A record with every field (critical fields included) filled scores
confidence 1. -/
theorem calcConf_one_of_all_filled (t : String) (d : Dict)
    (hne : d ≠ []) (herr : hasKey d "error" = false)
    (hall : ∀ p ∈ d, p.2.isSome = true)
    (hcrit : ∀ f ∈ (criticalFields t).getD [], hasKey d f = true) :
    calculateExtractionConfidence d t = 1 := by
  have hfull : d.filter (fun p => p.2.isSome) = d := List.filter_eq_self.mpr hall
  have hnn : nonNullCount d = d.length := by
    unfold nonNullCount
    rw [hfull]
  have hlen0 : ¬ d.length = 0 := fun hc => hne (List.length_eq_zero.mp hc)
  have hEmpty : d.isEmpty = false := by
    cases d with
    | nil => exact absurd rfl hne
    | cons p d' => rfl
  have hbase : ((nonNullCount d : ℚ)) / ((d.length : ℚ)) = 1 := by
    rw [hnn]
    exact div_self (by exact_mod_cast hlen0)
  have hfilled : ∀ f, hasKey d f = true → isFilled d f = true := by
    intro f hf
    unfold hasKey at hf
    rcases hl : dictLookup d f with _ | v
    · rw [hl] at hf
      exact Bool.noConfusion hf
    · have hmem := dictLookup_mem _ _ _ hl
      have hv := hall _ hmem
      unfold isFilled
      rw [hl]
      rcases hv2 : v with _ | x
      · rw [hv2] at hv
        exact Bool.noConfusion hv
      · rfl
  unfold calculateExtractionConfidence
  rw [if_neg (by simp [hEmpty, herr]), if_neg hlen0]
  rcases hcf : criticalFields t with _ | crit
  · exact hbase
  · have hcrit' : ∀ f ∈ crit, hasKey d f = true := by
      intro f hf
      apply hcrit
      rw [hcf]
      exact hf
    have hfilcrit : crit.filter (fun f => isFilled d f) = crit :=
      List.filter_eq_self.mpr (fun f hf => hfilled f (hcrit' f hf))
    have hcritlen : ¬ crit.length = 0 := fun hc =>
      criticalFields_ne_nil t crit hcf (List.length_eq_zero.mp hc)
    have hfrac : (((crit.filter (fun f => isFilled d f)).length : ℚ)) /
        ((crit.length : ℚ)) = 1 := by
      rw [hfilcrit]
      exact div_self (by exact_mod_cast hcritlen)
    dsimp only
    rw [hfilcrit]
    rw [show (((crit.length : ℚ)) / ((crit.length : ℚ))) = 1 from div_self (by exact_mod_cast hcritlen), hbase]
    norm_num

/-- C7: extraction confidence is monotonically non-decreasing in the
number of non-null fields (all else — keys and their order — equal),
is 0.0 on a record with no field filled, and is 1.0 on a record with
every field filled that contains all critical fields of its category. -/
theorem extraction_confidence_monotonicity_and_bounds :
    (∀ t d1 d2, FillsTo d1 d2 →
        calculateExtractionConfidence d1 t ≤ calculateExtractionConfidence d2 t) ∧
    (∀ t d, (∀ p ∈ d, p.2 = none) → calculateExtractionConfidence d t = 0) ∧
    (∀ t d, d ≠ [] → hasKey d "error" = false →
        (∀ p ∈ d, p.2.isSome = true) →
        (∀ f ∈ (criticalFields t).getD [], hasKey d f = true) →
        calculateExtractionConfidence d t = 1) :=
  ⟨calcConf_mono, calcConf_zero_of_all_null, calcConf_one_of_all_filled⟩

/-- Witness for C7 at concrete transcript records. -/
theorem extraction_confidence_monotonicity_and_bounds_witness :
    calculateExtractionConfidence dictPartial "transcript" ≤
      calculateExtractionConfidence dictMore "transcript" ∧
    calculateExtractionConfidence dictAllNull "transcript" = 0 ∧
    calculateExtractionConfidence dictFullTranscript "transcript" = 1 :=
  ⟨extraction_confidence_monotonicity_and_bounds.1 "transcript" dictPartial dictMore
     (by exact ⟨rfl, fun _ => rfl, rfl, fun _ => rfl, rfl, fun h => h, rfl, fun h => h, trivial⟩),
   extraction_confidence_monotonicity_and_bounds.2.1 "transcript" dictAllNull (by decide),
   extraction_confidence_monotonicity_and_bounds.2.2 "transcript" dictFullTranscript
     (by decide) (by decide) (by decide) (by decide)⟩

/-- Length of a filterMap equals the count of elements mapped to `some`. -/
theorem length_filterMap_eq {α β : Type} (f : α → Option β) :
    ∀ l : List α, (l.filterMap f).length = (l.filter (fun a => (f a).isSome)).length := by
  intro l
  induction l with
  | nil => rfl
  | cons a l ih =>
    rcases hf : f a with _ | b
    · simp [List.filterMap_cons, List.filter_cons, hf, ih]
    · simp [List.filterMap_cons, List.filter_cons, hf, ih]

/-- C8: in the extraction stage, a document whose model call succeeds is
extracted and included even when a sibling document's extraction raises;
the stage still completes (stage marker "data_extracted"), and the
result holds exactly the successfully extracted documents (failing ones
are omitted). -/
theorem extraction_isolates_per_document_failures
    (respOf : ClassifiedDocument → Except String ExtractionResponse)
    (s : ApplicationState) (d : ClassifiedDocument) (r : ExtractionResponse)
    (hd : d ∈ s.classified_documents) (hr : respOf d = Except.ok r)
    (_hfail : ∃ d' ∈ s.classified_documents, ∃ e, respOf d' = Except.error e) :
    extractFromDocument d r ∈ (extractorProcess respOf s).extracted_data ∧
    (extractorProcess respOf s).current_stage = "data_extracted" ∧
    (extractorProcess respOf s).extracted_data.length =
      (s.classified_documents.filter (fun d2 => ((respOf d2).toOption).isSome)).length := by
  refine ⟨?_, rfl, ?_⟩
  · apply List.mem_filterMap.mpr
    exact ⟨d, hd, by rw [hr]; rfl⟩
  · show (s.classified_documents.filterMap
        (fun doc => (Except.map (extractFromDocument doc) (respOf doc)).toOption)).length = _
    rw [length_filterMap_eq]
    have hfe : s.classified_documents.filter
        (fun doc => ((Except.map (extractFromDocument doc) (respOf doc)).toOption).isSome) =
        s.classified_documents.filter (fun d2 => ((respOf d2).toOption).isSome) := by
      apply List.filter_congr
      intro d2 _
      rcases h2 : respOf d2 with e | r2 <;> rfl
    rw [hfe]

/-- Witness for C8: the CV extraction raises, the transcript is still
extracted and the stage completes. -/
theorem extraction_isolates_per_document_failures_witness :
    extractFromDocument sampleTranscriptDoc (ExtractionResponse.json dictFullTranscript) ∈
      (extractorProcess c8RespOf transcriptAndCvState).extracted_data ∧
    (extractorProcess c8RespOf transcriptAndCvState).current_stage = "data_extracted" ∧
    (extractorProcess c8RespOf transcriptAndCvState).extracted_data.length =
      (transcriptAndCvState.classified_documents.filter
        (fun d2 => ((c8RespOf d2).toOption).isSome)).length :=
  extraction_isolates_per_document_failures c8RespOf transcriptAndCvState
    sampleTranscriptDoc (ExtractionResponse.json dictFullTranscript)
    (List.mem_cons_self _ _) rfl
    ⟨sampleCvDoc, List.mem_cons_of_mem _ (List.mem_cons_self _ _), "pdf reader crashed", rfl⟩

/-- C2: when a required category is missing, the decision stage
short-circuits: it stores the MISSING_DOCS decision with confidence 1.0
whose missing list is exactly the set difference of required categories
minus classified categories, marks the stage decision_made, and its
result is independent of the retrieval/model call (no call is consulted
in this branch). -/
theorem missing_docs_short_circuit
    (respOf : ApplicationState → Except String DecisionResponse)
    (s : ApplicationState)
    (_hreq : requiredDocs s.entity ≠ [])
    (t0 : String) (ht0 : t0 ∈ requiredDocs s.entity)
    (hnot : t0 ∉ s.classified_documents.map (fun doc => doc.document_type)) :
    (admissionProcess respOf s).admission_decision =
      some (missingDocsDecision (checkDocumentCompleteness s)) ∧
    (missingDocsDecision (checkDocumentCompleteness s)).status = Status.MISSING_DOCS ∧
    (missingDocsDecision (checkDocumentCompleteness s)).confidence = 1 ∧
    (∀ t, t ∈ (missingDocsDecision (checkDocumentCompleteness s)).missing_documents ↔
        (t ∈ requiredDocs s.entity ∧
          t ∉ s.classified_documents.map (fun doc => doc.document_type))) ∧
    (admissionProcess respOf s).current_stage = "decision_made" ∧
    (∀ respOf2, admissionProcess respOf s = admissionProcess respOf2 s) := by
  have hmem : t0 ∈ checkDocumentCompleteness s := by
    unfold checkDocumentCompleteness
    exact List.mem_filter.mpr ⟨ht0, by simpa using hnot⟩
  have hne : ¬ ((checkDocumentCompleteness s).isEmpty = true) := by
    intro hc
    rw [List.isEmpty_iff.mp hc] at hmem
    exact absurd hmem (List.not_mem_nil t0)
  have hrun : ∀ (rof : ApplicationState → Except String DecisionResponse),
      admissionProcess rof s =
        { s with current_stage := "decision_made",
                 admission_decision :=
                   some (missingDocsDecision (checkDocumentCompleteness s)) } := by
    intro rof
    unfold admissionProcess
    dsimp only
    split
    · rename_i hc
      exact absurd hc hne
    · rfl
  refine ⟨by rw [hrun respOf], rfl, rfl, ?_, by rw [hrun respOf], ?_⟩
  · intro t
    show t ∈ (requiredDocs s.entity).filter
        (fun t => decide (t ∉ s.classified_documents.map (fun doc => doc.document_type))) ↔ _
    constructor
    · intro hmemf
      rcases List.mem_filter.mp hmemf with ⟨hin, hdec⟩
      exact ⟨hin, of_decide_eq_true hdec⟩
    · rintro ⟨hin, hnotin⟩
      exact List.mem_filter.mpr ⟨hin, decide_eq_true hnotin⟩
  · intro respOf2
    rw [hrun respOf, hrun respOf2]

/-- Witness for C2: German entity with a transcript but no Abitur. -/
theorem missing_docs_short_circuit_witness :
    (admissionProcess decisionRespInvalid deMissingAbiturState).admission_decision =
      some (missingDocsDecision (checkDocumentCompleteness deMissingAbiturState)) ∧
    (missingDocsDecision (checkDocumentCompleteness deMissingAbiturState)).status =
      Status.MISSING_DOCS ∧
    (missingDocsDecision (checkDocumentCompleteness deMissingAbiturState)).confidence = 1 ∧
    (∀ t, t ∈ (missingDocsDecision
        (checkDocumentCompleteness deMissingAbiturState)).missing_documents ↔
        (t ∈ requiredDocs deMissingAbiturState.entity ∧
          t ∉ deMissingAbiturState.classified_documents.map (fun doc => doc.document_type))) ∧
    (admissionProcess decisionRespInvalid deMissingAbiturState).current_stage =
      "decision_made" ∧
    (∀ respOf2, admissionProcess decisionRespInvalid deMissingAbiturState =
      admissionProcess respOf2 deMissingAbiturState) :=
  missing_docs_short_circuit decisionRespInvalid deMissingAbiturState
    (by decide) "abitur" (by decide) (by decide)

/-- C10 amended: an entity outside the required-documents table has an
empty completeness result, so the MISSING_DOCS short-circuit branch is
never taken: any decision stored by the stage comes from the synthesis
model's response through `_apply_decision_logic` (which may itself
propose MISSING_DOCS). -/
theorem no_required_docs_entity_skips_missing_branch
    (respOf : ApplicationState → Except String DecisionResponse)
    (s : ApplicationState)
    (h1 : s.entity ≠ "DE") (h2 : s.entity ≠ "UK") (h3 : s.entity ≠ "CA")
    (h4 : s.admission_decision = none) :
    checkDocumentCompleteness s = [] ∧
    (∀ dec, (admissionProcess respOf s).admission_decision = some dec →
      ∃ r, respOf { s with current_stage := "making_decision" } = Except.ok r ∧
        dec = applyDecisionLogic r) := by
  have hreq : requiredDocs s.entity = [] := by
    unfold requiredDocs
    rw [if_neg h1, if_neg h2, if_neg h3]
  have hcc : checkDocumentCompleteness s = [] := by
    unfold checkDocumentCompleteness
    rw [hreq]
    rfl
  refine ⟨hcc, ?_⟩
  intro dec hdec
  unfold admissionProcess at hdec
  dsimp only at hdec
  split at hdec
  · rename_i hc
    rcases hro : respOf { s with current_stage := "making_decision" } with e | r
    · rw [hro] at hdec
      have hnone : s.admission_decision = some dec := hdec
      rw [h4] at hnone
      exact Option.noConfusion hnone
    · rw [hro] at hdec
      have hsome : some (applyDecisionLogic r) = some dec := hdec
      exact ⟨r, rfl, (Option.some.inj hsome).symm⟩
  · rename_i hc
    exact absurd (by rw [show checkDocumentCompleteness
        { s with current_stage := "making_decision" } =
        checkDocumentCompleteness s from rfl, hcc]; rfl) hc

/-- Witness for C10 at a concrete entity "FR" application. -/
theorem no_required_docs_entity_skips_missing_branch_witness :
    checkDocumentCompleteness frEntityState = [] ∧
    (∀ dec, (admissionProcess decisionRespReview frEntityState).admission_decision =
        some dec →
      ∃ r, decisionRespReview { frEntityState with current_stage := "making_decision" } =
          Except.ok r ∧
        dec = applyDecisionLogic r) :=
  no_required_docs_entity_skips_missing_branch decisionRespReview frEntityState
    (by decide) (by decide) (by decide) rfl

/-- C10 counterexample: for the entity "FR" the completeness check is
empty, yet the decision stage can still return a MISSING_DOCS decision —
the synthesis model's own proposed status is stored verbatim. -/
theorem foreign_entity_missing_docs_still_possible :
    frEntityState.entity ≠ "DE" ∧ frEntityState.entity ≠ "UK" ∧
    frEntityState.entity ≠ "CA" ∧
    (∃ dec, (admissionProcess decisionRespMissingDocs frEntityState).admission_decision =
        some dec ∧ dec.status = Status.MISSING_DOCS) := by
  refine ⟨by decide, by decide, by decide,
    ⟨applyDecisionLogic missingDocsProposal, ?_, rfl⟩⟩
  rfl

/-- The classification gate either continues or reports an error with a
message recorded in the state it returns. -/
theorem gate1_cases (s : ApplicationState) :
    (shouldContinueAfterClassification s).1 = "continue" ∨
    ((shouldContinueAfterClassification s).1 = "error" ∧
      (shouldContinueAfterClassification s).2.error_message.isSome = true) := by
  unfold shouldContinueAfterClassification
  by_cases h1 : s.error_message.isSome = true
  · rw [if_pos h1]
    exact Or.inr ⟨rfl, h1⟩
  · rw [if_neg h1]
    by_cases h2 : s.classified_documents.isEmpty = true
    · rw [if_pos h2]
      exact Or.inr ⟨rfl, rfl⟩
    · rw [if_neg h2]
      by_cases h3 : (s.classified_documents.filter
          (fun doc => decide (1 / 2 < doc.confidence))).isEmpty = true
      · rw [if_pos h3]
        exact Or.inr ⟨rfl, rfl⟩
      · rw [if_neg h3]
        exact Or.inl rfl

/-- The extraction gate either continues or reports an error with a
message recorded in the state it returns. -/
theorem gate2_cases (s : ApplicationState) :
    (shouldContinueAfterExtraction s).1 = "continue" ∨
    ((shouldContinueAfterExtraction s).1 = "error" ∧
      (shouldContinueAfterExtraction s).2.error_message.isSome = true) := by
  unfold shouldContinueAfterExtraction
  by_cases h1 : s.error_message.isSome = true
  · rw [if_pos h1]
    exact Or.inr ⟨rfl, h1⟩
  · rw [if_neg h1]
    by_cases h2 : s.extracted_data.isEmpty = true
    · rw [if_pos h2]
      exact Or.inr ⟨rfl, rfl⟩
    · rw [if_neg h2]
      by_cases h3 : (s.extracted_data.filter
          (fun x => decide (1 / 10 < x.confidence))).isEmpty = true
      · rw [if_pos h3]
        exact Or.inr ⟨rfl, rfl⟩
      · rw [if_neg h3]
        exact Or.inl rfl

/-- The decision stage ends either at decision_made with a stored
decision, or at the plain "error" stage with a recorded message. -/
theorem admission_stage_cases
    (respOf : ApplicationState → Except String DecisionResponse)
    (s : ApplicationState) :
    ((admissionProcess respOf s).current_stage = "decision_made" ∧
      (admissionProcess respOf s).admission_decision.isSome = true) ∨
    ((admissionProcess respOf s).current_stage = "error" ∧
      (admissionProcess respOf s).error_message.isSome = true) := by
  unfold admissionProcess
  dsimp only
  split
  · split
    · exact Or.inl ⟨rfl, rfl⟩
    · exact Or.inr ⟨rfl, rfl⟩
  · exact Or.inl ⟨rfl, rfl⟩

/-- C5 amended: every run of the workflow graph terminates in exactly one
of three marked states: decision_made with a stored decision (the
MISSING_DOCS case included), error_handled with an error message (a gate
failure routed through the error handler), or the plain "error" stage
with an error message (a decision-stage exception caught inside the
decision agent, whose node is wired directly to END). A workflow_error
stage can only come from the graph invocation itself raising, outside
this embedding. -/
theorem workflow_terminal_stage_characterisation
    (classifyResp : String → Except String ClassificationResponse)
    (extractResp : ClassifiedDocument → Except String ExtractionResponse)
    (decisionResp : ApplicationState → Except String DecisionResponse)
    (s0 : ApplicationState) :
    ((runWorkflow classifyResp extractResp decisionResp s0).current_stage = "decision_made" ∧
      (runWorkflow classifyResp extractResp decisionResp s0).admission_decision.isSome = true) ∨
    ((runWorkflow classifyResp extractResp decisionResp s0).current_stage = "error_handled" ∧
      (runWorkflow classifyResp extractResp decisionResp s0).error_message.isSome = true) ∨
    ((runWorkflow classifyResp extractResp decisionResp s0).current_stage = "error" ∧
      (runWorkflow classifyResp extractResp decisionResp s0).error_message.isSome = true) := by
  unfold runWorkflow
  dsimp only
  rcases gate1_cases (classifierProcess classifyResp s0) with hg1 | ⟨hg1, hmsg1⟩
  · have hne1 : ¬ ((shouldContinueAfterClassification
        (classifierProcess classifyResp s0)).1 = "error") := by
      rw [hg1]
      decide
    rw [if_neg hne1]
    rcases gate2_cases (extractorProcess extractResp
        (shouldContinueAfterClassification (classifierProcess classifyResp s0)).2) with
      hg2 | ⟨hg2, hmsg2⟩
    · have hne2 : ¬ ((shouldContinueAfterExtraction (extractorProcess extractResp
          (shouldContinueAfterClassification (classifierProcess classifyResp s0)).2)).1 =
            "error") := by
        rw [hg2]
        decide
      rw [if_neg hne2]
      rcases admission_stage_cases decisionResp
          ((shouldContinueAfterExtraction (extractorProcess extractResp
            (shouldContinueAfterClassification (classifierProcess classifyResp s0)).2)).2) with
        ⟨ha, hb⟩ | ⟨ha, hb⟩
      · exact Or.inl ⟨ha, hb⟩
      · exact Or.inr (Or.inr ⟨ha, hb⟩)
    · rw [if_pos hg2]
      exact Or.inr (Or.inl ⟨rfl, hmsg2⟩)
  · rw [if_pos hg1]
    exact Or.inr (Or.inl ⟨rfl, hmsg1⟩)

/-- C5 counterexample: a concrete run in which classification and
extraction succeed and the completeness check passes, but the decision
model call raises: the workflow terminates at stage "error" — not
decision_made, not error_handled, not workflow_error — with no decision
object, only the recorded exception message. -/
theorem workflow_terminates_at_plain_error_stage :
    (runWorkflow demoClassifyResp demoExtractResp decisionRespFailure
        caOneFileState).current_stage = "error" ∧
    ("error" : String) ≠ "decision_made" ∧
    ("error" : String) ≠ "error_handled" ∧
    ("error" : String) ≠ "workflow_error" ∧
    (runWorkflow demoClassifyResp demoExtractResp decisionRespFailure
        caOneFileState).admission_decision = none ∧
    (runWorkflow demoClassifyResp demoExtractResp decisionRespFailure
        caOneFileState).error_message =
      some "Connection error from decision model call" := by
  have hgt : (2 : ℚ)⁻¹ < 9 / 10 := by norm_num
  have hdoc : classifierProcess demoClassifyResp caOneFileState =
      { caOneFileState with
        classified_documents :=
          [{ filename := "transcript.pdf", document_type := "transcript",
             confidence := 9 / 10 }],
        current_stage := "documents_classified" } := rfl
  have hg1 : shouldContinueAfterClassification
      (classifierProcess demoClassifyResp caOneFileState) =
      ("continue", classifierProcess demoClassifyResp caOneFileState) := by
    rw [hdoc]
    unfold shouldContinueAfterClassification
    rw [if_neg (by simp [caOneFileState, blankState]),
        if_neg (by simp),
        if_neg (by simp [hgt])]
  have hext : extractorProcess demoExtractResp
      (classifierProcess demoClassifyResp caOneFileState) =
      { caOneFileState with
        classified_documents :=
          [{ filename := "transcript.pdf", document_type := "transcript",
             confidence := 9 / 10 }],
        extracted_data :=
          [{ document_type := "transcript",
             data := [("institution_name", some "IU Berlin")],
             confidence := calculateExtractionConfidence
               [("institution_name", some "IU Berlin")] "transcript",
             source_file := "transcript.pdf" }],
        current_stage := "data_extracted" } := rfl
  have hconf : (1 : ℚ) / 10 < calculateExtractionConfidence
      [("institution_name", some "IU Berlin")] "transcript" := by
    have hc : calculateExtractionConfidence
        [("institution_name", some "IU Berlin")] "transcript" =
        min 1 ((1 : ℚ) / 1 * (1 / 2) + (1 : ℚ) / 3 * (1 / 2)) := by
      simp [calculateExtractionConfidence, hasKey, dictLookup, nonNullCount,
        criticalFields, isFilled]
    rw [hc, min_eq_right (by norm_num)]
    norm_num
  have hconf2 : (10 : ℚ)⁻¹ < calculateExtractionConfidence
      [("institution_name", some "IU Berlin")] "transcript" := by
    rw [← one_div]
    exact hconf
  have hg2 : shouldContinueAfterExtraction (extractorProcess demoExtractResp
      (classifierProcess demoClassifyResp caOneFileState)) =
      ("continue", extractorProcess demoExtractResp
        (classifierProcess demoClassifyResp caOneFileState)) := by
    rw [hext]
    unfold shouldContinueAfterExtraction
    rw [if_neg (by simp [caOneFileState, blankState]),
        if_neg (by simp),
        if_neg (by simp [hconf2])]
  unfold runWorkflow
  dsimp only
  rw [hg1]
  rw [if_neg (by decide)]
  dsimp only
  rw [hg2]
  rw [if_neg (by decide)]
  dsimp only
  exact ⟨rfl, by decide, by decide, by decide, rfl, rfl⟩

end AdmissionAuto
